import Mathlib

set_option linter.dupNamespace false

/-!
Verification of the envelope-normalization and state-polling contracts of the
upcloud-go-api repository (file upcloud/server.go), over a shallow embedding
of the Go code in Lean 4.

JSON payloads are modelled as an inductive `Json` value (the output of the
standard-library parser).  JSON numbers are modelled as integers: every
numeric field exercised by the contracts is integral (the one float64 field,
`Server.License`, only ever carries integral values in the modelled
payloads).  Go slices are modelled as Lean lists; a nil slice and an empty
slice are identified.  Decoding follows the semantics of encoding/json for
the concrete struct shapes declared in server.go: objects decode field by
field in input order, keys are matched to field tags case-insensitively
(the stdlib key fold, modelled for ASCII), unknown keys are ignored, a
null value leaves a scalar field unchanged and sets a slice field to nil,
a type-incompatible value yields an error, and types with a custom
UnmarshalJSON method have that method applied to the raw value of the
field.
-/

namespace Upcloud

/-- A parsed JSON value. -/
inductive Json where
  | null : Json
  | bool (b : Bool) : Json
  | num (n : Int) : Json
  | str (s : String) : Json
  | arr (elems : List Json) : Json
  | obj (fields : List (String × Json)) : Json
deriving Repr

/-- Decoding errors produced by the embedded encoding/json semantics.
`typeMismatch` stands for *json.UnmarshalTypeError (a value of the wrong
JSON kind for the declared Go type); `stringTagParse` for the number-path
failure when a `,string`-tagged int field receives a numeric-looking
string that strconv.ParseInt rejects (bad digits or int64 overflow);
`stringTagInvalid` for the invalid-use-of-string-tag error on every other
quoted literal and on a non-string JSON value (the stdlib reports the
quoted bool and quoted string sub-cases with distinct error values; all
are decode failures and are folded into this kind). -/
inductive DecodeErr where
  | typeMismatch (goType : String) : DecodeErr
  | stringTagParse (s : String) : DecodeErr
  | stringTagInvalid (s : String) : DecodeErr
deriving DecidableEq, Repr

/-- Elementwise decoding of a JSON array, stopping at the first error,
preserving order (the traversal order of encoding/json). -/
def mapE {α : Type} (dec : Json → Except DecodeErr α) : List Json → Except DecodeErr (List α)
  | [] => .ok []
  | x :: xs =>
    match dec x with
    | .error e => .error e
    | .ok v =>
      match mapE dec xs with
      | .error e => .error e
      | .ok vs => .ok (v :: vs)

/-- Decoding of a JSON object into a struct: fold the setter over the
fields in input order (later duplicate keys overwrite earlier ones, and the
first error in traversal order is returned, as in encoding/json). -/
def foldE {σ : Type} (set : σ → String → Json → Except DecodeErr σ) : σ → List (String × Json) → Except DecodeErr σ
  | acc, [] => .ok acc
  | acc, kv :: rest =>
    match set acc kv.1 kv.2 with
    | .error e => .error e
    | .ok acc2 => foldE set acc2 rest

def asciiLower (c : Char) : Char :=
  if 'A' ≤ c ∧ c ≤ 'Z' then Char.ofNat (c.toNat + 32) else c

def asciiLowerStr (s : String) : String := String.mk (s.data.map asciiLower)

/-- Matching of a JSON object key against a struct field tag, as
encoding/json does it: an exact match is preferred, otherwise the key is
matched case-insensitively.  All tags declared in server.go are ASCII, so
the fold is modelled as ASCII lowering (the two non-ASCII special cases of
the stdlib fold table, the Kelvin sign and the long s, are not modelled). -/
def keyMatches (tag key : String) : Bool :=
  tag == key || tag == asciiLowerStr key

/-- Decode a JSON value into a Go `string` field whose current value is
`old`: null is a no-op, a string replaces the value, anything else is a
type mismatch. -/
def goString (old : String) : Json → Except DecodeErr String
  | .null => .ok old
  | .str s => .ok s
  | _ => .error (.typeMismatch "string")

/-- Decode a JSON value into a Go numeric field (int or integral float64)
whose current value is `old`. -/
def goInt (old : Int) : Json → Except DecodeErr Int
  | .null => .ok old
  | .num n => .ok n
  | _ => .error (.typeMismatch "number")

/-- Decode a JSON value into a Go slice field: null sets the slice to nil
(the empty list here), an array decodes elementwise, anything else is a
type mismatch. -/
def goSlice {α : Type} (dec : Json → Except DecodeErr α) : Json → Except DecodeErr (List α)
  | .null => .ok []
  | .arr xs => mapE dec xs
  | _ => .error (.typeMismatch "slice")

/-- Decimal value of a digit list. -/
def digitsToNat : List Char → Nat
  | [] => 0
  | c :: cs => List.foldl (fun acc d => acc * 10 + (d.toNat - '0'.toNat)) (c.toNat - '0'.toNat) cs

/-- A nonempty all-digit list and its decimal value (leading zeros
allowed, as strconv accepts them). -/
def decDigits : List Char → Option Nat
  | [] => none
  | l => if l.all (fun c => c.isDigit) then some (digitsToNat l) else none

def int64MaxVal : Int := 9223372036854775807

def int64MinVal : Int := -9223372036854775808

/-- strconv.ParseInt(s, 10, 64): an optional sign followed by at least one
decimal digit, read in base 10, failing outside the int64 range (the
`int` fields are modelled at their 64-bit platform size). -/
def parseInt64 (s : String) : Option Int :=
  match s.data with
  | '+' :: rest =>
    match decDigits rest with
    | some n => if (n : Int) ≤ int64MaxVal then some (n : Int) else none
    | none => none
  | '-' :: rest =>
    match decDigits rest with
    | some n => if int64MinVal ≤ -(n : Int) then some (-(n : Int)) else none
    | none => none
  | l =>
    match decDigits l with
    | some n => if (n : Int) ≤ int64MaxVal then some (n : Int) else none
    | none => none

/-- The first-character check of the decoder on the number path: the
quoted content must begin with a minus sign or a decimal digit before it
is handed to strconv.ParseInt. -/
def firstCharNumeric (s : String) : Bool :=
  match s.data with
  | [] => false
  | c :: _ => c == '-' || c.isDigit

/-- Decode a JSON value into an `int ... ,string`-tagged Go field.  The
decoder unquotes the string and re-reads it as a literal: the exact
content "null" acts as a JSON null (a no-op for an int field); content
beginning with a minus sign or a digit goes to strconv.ParseInt with
int64 bounds — leading zeros such as "007" are accepted, bad digits or
overflow fail; every other content (empty, "abc", quoted bool or string
literals) is the invalid-use-of-string-tag failure. -/
def goIntStringTag (old : Int) : Json → Except DecodeErr Int
  | .null => .ok old
  | .str s =>
    if s == "null" then .ok old
    else if firstCharNumeric s then
      match parseInt64 s with
      | some n => .ok n
      | none => .error (.stringTagParse s)
    else .error (.stringTagInvalid s)
  | _ => .error (.stringTagInvalid "non-string value")

/-- `Server` from upcloud/server.go: all fields are strings except the
float64 `License` (modelled as an integer) and the `Tags` slice, which has
the custom unmarshaller of `ServerTagSlice`. -/
structure Server where
  CoreNumber : String
  Hostname : String
  License : Int
  MemoryAmount : String
  Plan : String
  Progress : String
  State : String
  Tags : List String
  Title : String
  UUID : String
  Zone : String
deriving DecidableEq, Repr

def Server.default : Server :=
  { CoreNumber := "", Hostname := "", License := 0, MemoryAmount := "",
    Plan := "", Progress := "", State := "", Tags := [], Title := "",
    UUID := "", Zone := "" }

/-- Body of `ServerTagSlice.UnmarshalJSON` applied to the raw value of a
`tags` field: unmarshal into an anonymous struct with a `tag` slice field
and keep that slice.  A null input leaves the local struct at its zero
value, so the result is the empty list. -/
def decodeTagsValue : Json → Except DecodeErr (List String)
  | .null => .ok []
  | .obj fs =>
    foldE (fun acc key v =>
      if keyMatches "tag" key then goSlice (goString "") v
      else .ok acc) [] fs
  | _ => .error (.typeMismatch "struct")

/-- Field setter for decoding a JSON object into a `Server`, following the
json tags declared on the struct. -/
def serverSet (acc : Server) (key : String) (v : Json) : Except DecodeErr Server :=
  if keyMatches "core_number" key then (goString acc.CoreNumber v).map (fun x => { acc with CoreNumber := x })
  else if keyMatches "hostname" key then (goString acc.Hostname v).map (fun x => { acc with Hostname := x })
  else if keyMatches "license" key then (goInt acc.License v).map (fun x => { acc with License := x })
  else if keyMatches "memory_amount" key then (goString acc.MemoryAmount v).map (fun x => { acc with MemoryAmount := x })
  else if keyMatches "plan" key then (goString acc.Plan v).map (fun x => { acc with Plan := x })
  else if keyMatches "progress" key then (goString acc.Progress v).map (fun x => { acc with Progress := x })
  else if keyMatches "state" key then (goString acc.State v).map (fun x => { acc with State := x })
  else if keyMatches "tags" key then (decodeTagsValue v).map (fun x => { acc with Tags := x })
  else if keyMatches "title" key then (goString acc.Title v).map (fun x => { acc with Title := x })
  else if keyMatches "uuid" key then (goString acc.UUID v).map (fun x => { acc with UUID := x })
  else if keyMatches "zone" key then (goString acc.Zone v).map (fun x => { acc with Zone := x })
  else .ok acc

/-- Decode a JSON value into a fresh (zero-valued) `Server`. -/
def decodeServer : Json → Except DecodeErr Server
  | .null => .ok Server.default
  | .obj fs => foldE serverSet Server.default fs
  | _ => .error (.typeMismatch "struct")

/-- Decode into the local `serverWrapper` struct of `Servers.UnmarshalJSON`
(a struct with a `server` slice field), returning the slice. -/
def decodeServerWrapper (old : List Server) : Json → Except DecodeErr (List Server)
  | .null => .ok old
  | .obj fs =>
    foldE (fun acc key v =>
      if keyMatches "server" key then goSlice decodeServer v
      else .ok acc) old fs
  | _ => .error (.typeMismatch "struct")

/-- Decode the full `{servers: {server: [...]}}` envelope: the anonymous
struct of `Servers.UnmarshalJSON` with its `servers` field of type
`serverWrapper`. -/
def decodeServersEnvelope : Json → Except DecodeErr (List Server)
  | .null => .ok []
  | .obj fs =>
    foldE (fun acc key v =>
      if keyMatches "servers" key then decodeServerWrapper acc v
      else .ok acc) [] fs
  | _ => .error (.typeMismatch "struct")

/-- `Servers` from upcloud/server.go. -/
structure Servers where
  Servers : List Server
deriving DecidableEq, Repr

/-- `Servers.UnmarshalJSON`: decode the envelope into a local value; on
error return the error with the receiver untouched, otherwise install the
inner list in the receiver. -/
def Servers.unmarshalJSON (s : Upcloud.Servers) (j : Json) : Upcloud.Servers × Option DecodeErr :=
  match decodeServersEnvelope j with
  | .ok list => (⟨list⟩, none)
  | .error e => (s, some e)

/-- `ServerTagSlice.UnmarshalJSON`: decode the tag wrapper into a local
struct; on error the receiver is untouched, otherwise the receiver becomes
the inner slice. -/
def ServerTagSlice.unmarshalJSON (t : List String) (j : Json) : List String × Option DecodeErr :=
  match decodeTagsValue j with
  | .ok tags => (tags, none)
  | .error e => (t, some e)

/-- `ServerConfiguration` from upcloud/server.go: both fields are declared
`int` with the `,string` json option, so the provider transmits them as
JSON strings and they are parsed into integers. -/
structure ServerConfiguration where
  CoreNumber : Int
  MemoryAmount : Int
deriving DecidableEq, Repr

def ServerConfiguration.default : ServerConfiguration :=
  { CoreNumber := 0, MemoryAmount := 0 }

def serverConfigurationSet (acc : ServerConfiguration) (key : String) (v : Json) : Except DecodeErr ServerConfiguration :=
  if keyMatches "core_number" key then (goIntStringTag acc.CoreNumber v).map (fun x => { acc with CoreNumber := x })
  else if keyMatches "memory_amount" key then (goIntStringTag acc.MemoryAmount v).map (fun x => { acc with MemoryAmount := x })
  else .ok acc

def decodeServerConfiguration : Json → Except DecodeErr ServerConfiguration
  | .null => .ok ServerConfiguration.default
  | .obj fs => foldE serverConfigurationSet ServerConfiguration.default fs
  | _ => .error (.typeMismatch "struct")

/-- Decode into the local `serverConfigurationWrapper` struct of
`ServerConfigurations.UnmarshalJSON` (a struct with a `server_size` slice
field), returning the slice. -/
def decodeServerConfigWrapper (old : List ServerConfiguration) : Json → Except DecodeErr (List ServerConfiguration)
  | .null => .ok old
  | .obj fs =>
    foldE (fun acc key v =>
      if keyMatches "server_size" key then goSlice decodeServerConfiguration v
      else .ok acc) old fs
  | _ => .error (.typeMismatch "struct")

/-- Decode the full `{server_sizes: {server_size: [...]}}` envelope of
`ServerConfigurations.UnmarshalJSON`. -/
def decodeServerConfigsEnvelope : Json → Except DecodeErr (List ServerConfiguration)
  | .null => .ok []
  | .obj fs =>
    foldE (fun acc key v =>
      if keyMatches "server_sizes" key then decodeServerConfigWrapper acc v
      else .ok acc) [] fs
  | _ => .error (.typeMismatch "struct")

/-- `ServerConfigurations` from upcloud/server.go. -/
structure ServerConfigurations where
  ServerConfigurations : List ServerConfiguration
deriving DecidableEq, Repr

/-- `ServerConfigurations.UnmarshalJSON`. -/
def ServerConfigurations.unmarshalJSON (s : Upcloud.ServerConfigurations) (j : Json) : Upcloud.ServerConfigurations × Option DecodeErr :=
  match decodeServerConfigsEnvelope j with
  | .ok list => (⟨list⟩, none)
  | .error e => (s, some e)

/-- Modelled from the spec: the `ServerStorageDevice` struct is declared in
a repository file not included in the provided sources; the spec describes
resources as provider-defined scalar fields identified by an external UUID.
Only the `UUID` field, the one read by `ServerDetails.StorageDevice`, is
modelled. -/
structure ServerStorageDevice where
  UUID : String
deriving DecidableEq, Repr

def ServerStorageDevice.default : ServerStorageDevice := { UUID := "" }

def decodeStorageDevice : Json → Except DecodeErr ServerStorageDevice
  | .null => .ok ServerStorageDevice.default
  | .obj fs =>
    foldE (fun acc key v =>
      if keyMatches "uuid" key then (goString acc.UUID v).map (fun x => { acc with UUID := x })
      else .ok acc) ServerStorageDevice.default fs
  | _ => .error (.typeMismatch "struct")

/-- Body of `ServerStorageDeviceSlice.UnmarshalJSON` applied to the raw
value of a `storage_devices` field. -/
def decodeStorageDevicesValue : Json → Except DecodeErr (List ServerStorageDevice)
  | .null => .ok []
  | .obj fs =>
    foldE (fun acc key v =>
      if keyMatches "storage_device" key then goSlice decodeStorageDevice v
      else .ok acc) [] fs
  | _ => .error (.typeMismatch "struct")

/-- `ServerDetails` from upcloud/server.go: it embeds `Server` with an
empty json name, so the embedded fields are promoted to the top level of
the JSON object.  Fields whose types are declared in repository files not
included in the provided sources (`IPAddresses`, `Labels`, `Metadata`,
`Networking`, `RemoteAccessEnabled`) are omitted from the model; no
contract under verification mentions them. -/
structure ServerDetails extends Server where
  BootOrder : String
  Firewall : String
  Host : Int
  NICModel : String
  ServerGroup : String
  SimpleBackup : String
  StorageDevices : List ServerStorageDevice
  Timezone : String
  VideoModel : String
  RemoteAccessType : String
  RemoteAccessHost : String
  RemoteAccessPassword : String
  RemoteAccessPort : String
deriving DecidableEq, Repr

def ServerDetails.default : ServerDetails :=
  { toServer := Server.default, BootOrder := "", Firewall := "", Host := 0,
    NICModel := "", ServerGroup := "", SimpleBackup := "",
    StorageDevices := [], Timezone := "", VideoModel := "",
    RemoteAccessType := "", RemoteAccessHost := "",
    RemoteAccessPassword := "", RemoteAccessPort := "" }

/-- The json tags declared on `ServerDetails` in server.go whose field
types (`IPAddressSlice`, `LabelSlice`, `Boolean`, `ServerNetworking`) are
defined in repository files not among the provided sources.  Their wire
grammar cannot be read off the given material, so their decoding is not
modelled: payloads naming one of these tags lie outside the modelled
fragment, and the theorems that assert successful `ServerDetails` decodes
carry an explicit hypothesis excluding them (see
`hasUnmodelledDetailKey`).  Every error the modelled decoder does report
arises from a fully modelled field and is an error of the program. -/
def unmodelledDetailTags : List String :=
  ["ip_addresses", "labels", "metadata", "networking", "remote_access_enabled"]

/-- Whether a JSON object names (up to the key fold) one of the
`ServerDetails` fields whose type is outside the provided sources. -/
def hasUnmodelledDetailKey : Json → Bool
  | .obj fs => fs.any (fun kv => unmodelledDetailTags.any (fun t => keyMatches t kv.1))
  | _ => false

/-- Field setter for `ServerDetails` (that is, for the tag-preserving local
type `localServerDetails`): the modelled declared fields first, then the
promoted fields of the embedded `Server`.  The five declared fields listed
in `unmodelledDetailTags` are not modelled and fall through to the
unknown-key path; theorems about successful decodes exclude payloads
naming them. -/
def serverDetailsSet (acc : ServerDetails) (key : String) (v : Json) : Except DecodeErr ServerDetails :=
  if keyMatches "boot_order" key then (goString acc.BootOrder v).map (fun x => { acc with BootOrder := x })
  else if keyMatches "firewall" key then (goString acc.Firewall v).map (fun x => { acc with Firewall := x })
  else if keyMatches "host" key then (goInt acc.Host v).map (fun x => { acc with Host := x })
  else if keyMatches "nic_model" key then (goString acc.NICModel v).map (fun x => { acc with NICModel := x })
  else if keyMatches "server_group" key then (goString acc.ServerGroup v).map (fun x => { acc with ServerGroup := x })
  else if keyMatches "simple_backup" key then (goString acc.SimpleBackup v).map (fun x => { acc with SimpleBackup := x })
  else if keyMatches "storage_devices" key then (decodeStorageDevicesValue v).map (fun x => { acc with StorageDevices := x })
  else if keyMatches "timezone" key then (goString acc.Timezone v).map (fun x => { acc with Timezone := x })
  else if keyMatches "video_model" key then (goString acc.VideoModel v).map (fun x => { acc with VideoModel := x })
  else if keyMatches "remote_access_type" key then (goString acc.RemoteAccessType v).map (fun x => { acc with RemoteAccessType := x })
  else if keyMatches "remote_access_host" key then (goString acc.RemoteAccessHost v).map (fun x => { acc with RemoteAccessHost := x })
  else if keyMatches "remote_access_password" key then (goString acc.RemoteAccessPassword v).map (fun x => { acc with RemoteAccessPassword := x })
  else if keyMatches "remote_access_port" key then (goString acc.RemoteAccessPort v).map (fun x => { acc with RemoteAccessPort := x })
  else (serverSet acc.toServer key v).map (fun sv => { acc with toServer := sv })

/-- Decode a JSON value into the fields of a `ServerDetails` whose current
value is `old` (the decode of the `localServerDetails` struct, which keeps
the field tags but drops the custom unmarshaller). -/
def decodeServerDetailsFields (old : ServerDetails) : Json → Except DecodeErr ServerDetails
  | .null => .ok old
  | .obj fs => foldE serverDetailsSet old fs
  | _ => .error (.typeMismatch "struct")

/-- Decode the `{server: {...}}` envelope of `ServerDetails.UnmarshalJSON`:
an anonymous struct with a single `server` field of type
`localServerDetails`, starting from the zero value. -/
def decodeServerDetailsEnvelope : Json → Except DecodeErr ServerDetails
  | .null => .ok ServerDetails.default
  | .obj fs =>
    foldE (fun acc key v =>
      if keyMatches "server" key then decodeServerDetailsFields acc v
      else .ok acc) ServerDetails.default fs
  | _ => .error (.typeMismatch "struct")

/-- `ServerDetails.UnmarshalJSON`: decode the envelope into a local value;
on error return the error with the receiver untouched, otherwise overwrite
the receiver with the decoded value. -/
def ServerDetails.unmarshalJSON (s : ServerDetails) (j : Json) : ServerDetails × Option DecodeErr :=
  match decodeServerDetailsEnvelope j with
  | .ok d => (d, none)
  | .error e => (s, some e)

/-- The loop body of `ServerDetails.StorageDevice`: scan the slice in
order and return the first device whose UUID matches. -/
def findStorageDevice (storageUUID : String) : List ServerStorageDevice → Option ServerStorageDevice
  | [] => none
  | d :: rest => if d.UUID == storageUUID then some d else findStorageDevice storageUUID rest

/-- `ServerDetails.StorageDevice` from upcloud/server.go; the returned
pointer (or nil) is modelled as an `Option` of the device value. -/
def ServerDetails.storageDevice (s : ServerDetails) (storageUUID : String) : Option ServerStorageDevice :=
  findStorageDevice storageUUID s.StorageDevices

/-! ### Default (encoding/json) marshalling of the domain types

None of the types in server.go declares a custom `MarshalJSON`, so
encoding follows the reflective default: struct fields in declaration
order under their json tag names, `omitempty` fields dropped at their zero
value, slices as plain JSON arrays (an empty slice, standing for a Go nil
slice, encodes as null). -/

def emitStr (key val : String) : Option (String × Json) :=
  if val == "" then none else some (key, .str val)

def emitNum (key : String) (val : Int) : Option (String × Json) :=
  if val == 0 then none else some (key, .num val)

def emitTags (key : String) (tags : List String) : Option (String × Json) :=
  if tags.isEmpty then none else some (key, .arr (tags.map .str))

/-- Default marshalling of `Server` (every field carries `omitempty`). -/
def marshalServer (s : Server) : Json :=
  .obj (List.filterMap id
    [ emitStr "core_number" s.CoreNumber,
      emitStr "hostname" s.Hostname,
      emitNum "license" s.License,
      emitStr "memory_amount" s.MemoryAmount,
      emitStr "plan" s.Plan,
      emitStr "progress" s.Progress,
      emitStr "state" s.State,
      emitTags "tags" s.Tags,
      emitStr "title" s.Title,
      emitStr "uuid" s.UUID,
      emitStr "zone" s.Zone ])

/-- Default marshalling of `Servers`: the single `servers` field has no
`omitempty`, so it is always present; a nil slice encodes as null and the
flat array shape (not the nested provider shape) is produced otherwise. -/
def marshalServers (v : Upcloud.Servers) : Json :=
  .obj [("servers", if v.Servers.isEmpty then .null else .arr (v.Servers.map marshalServer))]

/-- Default marshalling of `ServerTagSlice`: a plain JSON array (null for
the nil slice); no custom marshaller exists. -/
def marshalServerTagSlice (t : List String) : Json :=
  if t.isEmpty then .null else .arr (t.map .str)

/-! ### State poller -/

/-- The success condition of a poll: desired-state mode succeeds on
equality, undesired-state mode on inequality. -/
inductive WaitMode where
  | desired (state : String) : WaitMode
  | undesired (state : String) : WaitMode
deriving DecidableEq, Repr

def stateMatches : WaitMode → String → Bool
  | .desired d, s => s == d
  | .undesired u, s => s != u

/-- Outcome of a poll call: success carries the number of fetches
performed and the final observed state; a timeout identifies the resource
and the mode (hence the state never reached or never left) together with
the cumulative elapsed time. -/
inductive WaitResult where
  | success (fetches : Nat) (finalState : String) : WaitResult
  | timeoutError (resource : String) (mode : WaitMode) (elapsed : Nat) : WaitResult
deriving DecidableEq, Repr

/-- Modelled from the spec: the body of `waitForState`
(`WaitForServerStateRequest` handling in the service layer, whose
implementation file is not among the provided sources).  Fetch the current
state immediately; succeed as soon as it satisfies the mode; otherwise
sleep one polling interval and retry, failing with a TimeoutError once the
cumulative elapsed time exceeds the timeout.  `fetch k` is the state
returned by the (k+1)-st read; `k` counts fetches so far and `elapsed` the
cumulative time.  The recursion carries explicit fuel; `timeout + 2` steps
are enough for any positive interval, so the fuel is never exhausted in
the cases the contracts speak about. -/
def waitAux (resource : String) (fetch : Nat → String) (m : WaitMode) (interval timeout : Nat) : Nat → Nat → Nat → WaitResult
  | 0, _, elapsed => .timeoutError resource m elapsed
  | fuel + 1, k, elapsed =>
    if stateMatches m (fetch k) then .success (k + 1) (fetch k)
    else if timeout < elapsed + interval then .timeoutError resource m (elapsed + interval)
    else waitAux resource fetch m interval timeout fuel (k + 1) (elapsed + interval)

def waitForState (resource : String) (fetch : Nat → String) (m : WaitMode) (interval timeout : Nat) : WaitResult :=
  waitAux resource fetch m interval timeout (timeout + 2) 0 0

end Upcloud

namespace Upcloud

/-! ### Helper lemmas -/

theorem mapE_ok_length {α : Type} (dec : Json → Except DecodeErr α) :
    ∀ (l : List Json) (r : List α), mapE dec l = .ok r → r.length = l.length := by
  intro l
  induction l with
  | nil =>
    intro r h
    simp only [mapE] at h
    cases h
    rfl
  | cons x xs ih =>
    intro r h
    simp only [mapE] at h
    cases hx : dec x with
    | error e => rw [hx] at h; cases h
    | ok v =>
      rw [hx] at h
      cases hxs : mapE dec xs with
      | error e => rw [hxs] at h; cases h
      | ok vs =>
        rw [hxs] at h
        cases h
        simp [ih vs hxs]

/-- A tag always matches itself as a key. -/
theorem keyMatches_refl (s : String) : keyMatches s s = true := by
  simp [keyMatches]

/-- A string on the number path is never the literal "null". -/
theorem beq_null_false_of_firstCharNumeric {s : String}
    (h : firstCharNumeric s = true) : (s == "null") = false := by
  cases hs : s == "null" with
  | false => rfl
  | true =>
    exfalso
    have hn : s = "null" := by simpa using hs
    rw [hn] at h
    exact absurd h (by decide)

/-! ### Claims about the envelope normalizer -/

/-- Claim C1: for every valid list payload shaped
`{"servers":{"server":[s1,...,sN]}}` with N items, unmarshalling into
`Servers` produces the sequence of the N decoded resource objects in input
order, with no re-sorting and no elements dropped or duplicated, and the
output length equals N. -/
theorem servers_unmarshal_preserves_list
    (js : List Json) (ss : List Server)
    (h : mapE decodeServer js = .ok ss) (s0 : Upcloud.Servers) :
    Servers.unmarshalJSON s0 (.obj [("servers", .obj [("server", .arr js)])])
        = (⟨ss⟩, none)
      ∧ ss.length = js.length := by
  constructor
  · simp [Servers.unmarshalJSON, decodeServersEnvelope, foldE, decodeServerWrapper, goSlice,
      keyMatches_refl, h]
  · exact mapE_ok_length decodeServer js ss h

theorem servers_unmarshal_preserves_list_witness :
    Servers.unmarshalJSON ⟨[]⟩
        (.obj [("servers", .obj [("server",
          .arr [.obj [("hostname", .str "a")], .obj [("hostname", .str "b")]])])])
        = (⟨[{ Server.default with Hostname := "a" },
             { Server.default with Hostname := "b" }]⟩, none)
      ∧ ([{ Server.default with Hostname := "a" },
          { Server.default with Hostname := "b" }] : List Server).length
        = ([.obj [("hostname", .str "a")], .obj [("hostname", .str "b")]] : List Json).length :=
  servers_unmarshal_preserves_list
    [.obj [("hostname", .str "a")], .obj [("hostname", .str "b")]]
    [{ Server.default with Hostname := "a" }, { Server.default with Hostname := "b" }]
    (by rfl) ⟨[]⟩

/-- Claim C4: a plural wrapper whose inner content is absent or empty
normalizes to an empty sequence, not an error and not a missing value:
`{"servers":{"server":[]}}` and `{"servers":{}}` for `Servers`, and for
the tag wrapper an empty object or an empty `tag` array, including when it
occurs as the `tags` field of a `Server`. -/
theorem empty_wrappers_normalize_to_empty (s0 : Upcloud.Servers) (t0 : List String) :
    Servers.unmarshalJSON s0 (.obj [("servers", .obj [("server", .arr [])])]) = (⟨[]⟩, none)
    ∧ Servers.unmarshalJSON s0 (.obj [("servers", .obj [])]) = (⟨[]⟩, none)
    ∧ ServerTagSlice.unmarshalJSON t0 (.obj []) = ([], none)
    ∧ ServerTagSlice.unmarshalJSON t0 (.obj [("tag", .arr [])]) = ([], none)
    ∧ decodeServer (.obj [("tags", .obj [])]) = .ok Server.default :=
  ⟨rfl, rfl, rfl, rfl, rfl⟩

/-- Claim C5: whenever decoding fails, unmarshalling returns the original
decode error unchanged and the receiver is left untouched (no partial
object); in particular a field with a type incompatible with its
declaration (an object where the `server` array was declared, a string
where the numeric `host` was declared) makes decoding fail. -/
theorem unmarshal_error_leaves_receiver
    : (∀ (s0 : Upcloud.Servers) (j : Json) (e : DecodeErr),
        decodeServersEnvelope j = .error e → Servers.unmarshalJSON s0 j = (s0, some e))
    ∧ (∀ (d0 : ServerDetails) (j : Json) (e : DecodeErr),
        decodeServerDetailsEnvelope j = .error e → ServerDetails.unmarshalJSON d0 j = (d0, some e))
    ∧ decodeServersEnvelope (.obj [("servers", .obj [("server", .obj [])])])
        = .error (.typeMismatch "slice")
    ∧ decodeServerDetailsEnvelope (.obj [("server", .obj [("host", .str "x")])])
        = .error (.typeMismatch "number") := by
  refine ⟨?_, ?_, rfl, rfl⟩
  · intro s0 j e h
    simp [Servers.unmarshalJSON, h]
  · intro d0 j e h
    simp [ServerDetails.unmarshalJSON, h]

theorem unmarshal_error_leaves_receiver_witness :
    Servers.unmarshalJSON ⟨[{ Server.default with Hostname := "kept" }]⟩
        (.obj [("servers", .obj [("server", .obj [])])])
      = (⟨[{ Server.default with Hostname := "kept" }]⟩, some (.typeMismatch "slice")) :=
  unmarshal_error_leaves_receiver.1
    ⟨[{ Server.default with Hostname := "kept" }]⟩
    (.obj [("servers", .obj [("server", .obj [])])])
    (.typeMismatch "slice") (by rfl)

/-- Claim C10: a payload whose outer plural key maps directly to a JSON
array (`{"servers":[...]}`) instead of the object wrapper is rejected by
`Servers.UnmarshalJSON` with an error, for every array content and every
receiver (which is left unchanged). -/
theorem flat_server_list_rejected (xs : List Json) (s0 : Upcloud.Servers) :
    Servers.unmarshalJSON s0 (.obj [("servers", .arr xs)])
      = (s0, some (.typeMismatch "struct")) := by
  simp [Servers.unmarshalJSON, decodeServersEnvelope, foldE, decodeServerWrapper, keyMatches_refl]

end Upcloud

namespace Upcloud

/-- Claim C2 counterexample: `Server` is a domain type carrying the
core-count and memory-amount fields, yet normalizing a list payload whose
server has `"core_number":"abc"` succeeds with no decode error and leaves
the field as the string "abc" (the claim asserts failure for every domain
type carrying those fields). -/
theorem numeric_string_fields_counterexample :
    Servers.unmarshalJSON ⟨[]⟩
        (.obj [("servers", .obj [("server", .arr [.obj [("core_number", .str "abc")]])])])
      = (⟨[{ Server.default with CoreNumber := "abc" }]⟩, none) := by
  rfl

/-- Claim C2 (amended): `ServerConfiguration` parses its numeric-as-string
fields into integer-typed fields — any string on the decoder number path
(first character a sign or digit) that strconv.ParseInt accepts yields its
integer value, so `"core_number":"2"` yields integer 2 and `"007"` yields
7, while a number-path string ParseInt rejects (bad digits, or outside the
int64 range like a 20-digit string) and a non-number string like `"abc"`
fail with a decode error.  The parsing does not hold for every domain type
carrying those fields: `Server` and the types embedding it declare
`core_number` and `memory_amount` as plain string fields and keep the
transmitted string unparsed. -/
theorem numeric_string_fields_parsed
    : (∀ (c m : String) (pc pm : Int),
        firstCharNumeric c = true → parseInt64 c = some pc →
        firstCharNumeric m = true → parseInt64 m = some pm →
        decodeServerConfiguration (.obj [("core_number", .str c), ("memory_amount", .str m)])
          = .ok ⟨pc, pm⟩)
    ∧ ServerConfigurations.unmarshalJSON ⟨[]⟩
        (.obj [("server_sizes", .obj [("server_size",
          .arr [.obj [("core_number", .str "2"), ("memory_amount", .str "512")]])])])
        = (⟨[⟨2, 512⟩]⟩, none)
    ∧ (∀ s : String, firstCharNumeric s = true → parseInt64 s = none →
        decodeServerConfiguration (.obj [("core_number", .str s)])
          = .error (.stringTagParse s))
    ∧ decodeServerConfiguration (.obj [("core_number", .str "abc")])
        = .error (.stringTagInvalid "abc")
    ∧ decodeServerConfiguration (.obj [("core_number", .str "007"), ("memory_amount", .str "512")])
        = .ok ⟨7, 512⟩
    ∧ decodeServerConfiguration (.obj [("core_number", .str "99999999999999999999")])
        = .error (.stringTagParse "99999999999999999999")
    ∧ (∀ a b : String,
        decodeServer (.obj [("core_number", .str a), ("memory_amount", .str b)])
          = .ok { Server.default with CoreNumber := a, MemoryAmount := b }) := by
  have kcm : keyMatches "core_number" "memory_amount" = false := by decide
  have khm : keyMatches "hostname" "memory_amount" = false := by decide
  have klm : keyMatches "license" "memory_amount" = false := by decide
  refine ⟨?_, by rfl, ?_, by rfl, by rfl, by rfl, ?_⟩
  · intro c m pc pm hc1 hc2 hm1 hm2
    simp [decodeServerConfiguration, foldE, serverConfigurationSet, goIntStringTag,
      keyMatches_refl, kcm, beq_null_false_of_firstCharNumeric hc1,
      beq_null_false_of_firstCharNumeric hm1, hc1, hc2, hm1, hm2,
      Except.map, ServerConfiguration.default]
  · intro s hs1 hs2
    simp [decodeServerConfiguration, foldE, serverConfigurationSet, goIntStringTag,
      keyMatches_refl, beq_null_false_of_firstCharNumeric hs1, hs1, hs2, Except.map]
  · intro a b
    simp [decodeServer, foldE, serverSet, goString, keyMatches_refl, kcm, khm, klm,
      Except.map, Server.default]

theorem numeric_string_fields_parsed_witness :
    decodeServerConfiguration (.obj [("core_number", .str "2"), ("memory_amount", .str "512")])
      = .ok ⟨2, 512⟩ :=
  numeric_string_fields_parsed.1 "2" "512" 2 512 (by decide) (by decide) (by decide) (by decide)

/-- Claim C3 counterexample: encoding the one-element `ServerTagSlice`
value ["web"] with the default (and only) encoder and normalizing the
encoded value again does not return the original value: the encoder emits
a flat array, which the custom unmarshaller rejects. -/
theorem marshal_roundtrip_counterexample :
    ServerTagSlice.unmarshalJSON [] (marshalServerTagSlice ["web"]) ≠ (["web"], none) := by
  decide

/-- Claim C3 (amended): no encoder to the provider nested shape exists in
the code; under the default encoding, re-normalizing yields an equal
object exactly for empty values (encoded as null), while every non-empty
`Servers` or `ServerTagSlice` value encodes to the flat shape, whose
re-normalization fails with a decode error and leaves the receiver
unchanged. -/
theorem marshal_roundtrip_only_empty
    : (∀ s0 : Upcloud.Servers,
        Servers.unmarshalJSON s0 (marshalServers ⟨[]⟩) = (⟨[]⟩, none))
    ∧ (∀ t0 : List String,
        ServerTagSlice.unmarshalJSON t0 (marshalServerTagSlice []) = ([], none))
    ∧ (∀ v : Upcloud.Servers, v.Servers ≠ [] → ∀ s0 : Upcloud.Servers,
        Servers.unmarshalJSON s0 (marshalServers v) = (s0, some (.typeMismatch "struct")))
    ∧ (∀ t : List String, t ≠ [] → ∀ t0 : List String,
        ServerTagSlice.unmarshalJSON t0 (marshalServerTagSlice t)
          = (t0, some (.typeMismatch "struct"))) := by
  refine ⟨fun s0 => rfl, fun t0 => rfl, ?_, ?_⟩
  · intro v hv s0
    obtain ⟨l⟩ := v
    cases l with
    | nil => exact absurd rfl hv
    | cons a as =>
      simp [marshalServers, Servers.unmarshalJSON, decodeServersEnvelope, foldE,
        decodeServerWrapper, keyMatches_refl]
  · intro t ht t0
    cases t with
    | nil => exact absurd rfl ht
    | cons a as =>
      simp [marshalServerTagSlice, ServerTagSlice.unmarshalJSON, decodeTagsValue]

theorem marshal_roundtrip_only_empty_witness :
    Servers.unmarshalJSON ⟨[]⟩ (marshalServers ⟨[{ Server.default with Hostname := "a" }]⟩)
      = (⟨[]⟩, some (.typeMismatch "struct")) :=
  marshal_roundtrip_only_empty.2.2.1 ⟨[{ Server.default with Hostname := "a" }]⟩
    (by decide) ⟨[]⟩

/-- Claim C6 counterexample: a valid single-object payload whose outer key
is "instance" does not populate the domain object with the inner fields —
`ServerDetails.UnmarshalJSON` reads only a key that fold-matches the
"server" tag, which "instance" does not, so the result is the zero object
without error, refuting "regardless of the outer key name". -/
theorem serverdetails_outer_key_counterexample :
    ServerDetails.unmarshalJSON ServerDetails.default
        (.obj [("instance", .obj [("hostname", .str "h")])])
      = (ServerDetails.default, none)
    ∧ ServerDetails.default.Hostname ≠ "h" := by
  exact ⟨rfl, by decide⟩

/-- Claim C6 (amended): for single-object payloads the outer key must
match "server" under the case-insensitive key fold of encoding/json (so
"Server" or "SERVER" also populate, but "instance" does not): for such a
key the domain object carries the decoded inner fields — asserted over
the modelled fragment, i.e. payloads not naming the five declared fields
whose types are outside the provided sources — and every modelled field
absent from the payload retains its zero value; a payload whose single
outer key does not fold-match "server" leaves every field at its zero
value and reports no error. -/
theorem serverdetails_unmarshal_populates
    : (∀ (key : String) (inner : Json) (d : ServerDetails),
        keyMatches "server" key = true →
        hasUnmodelledDetailKey inner = false →
        decodeServerDetailsFields ServerDetails.default inner = .ok d →
        ∀ s0 : ServerDetails,
          ServerDetails.unmarshalJSON s0 (.obj [(key, inner)]) = (d, none))
    ∧ decodeServerDetailsFields ServerDetails.default (.obj []) = .ok ServerDetails.default
    ∧ (∀ (key : String) (inner : Json), keyMatches "server" key = false →
        ∀ s0 : ServerDetails,
        ServerDetails.unmarshalJSON s0 (.obj [(key, inner)])
          = (ServerDetails.default, none)) := by
  refine ⟨?_, rfl, ?_⟩
  · intro key inner d hk hu hdec s0
    simp [ServerDetails.unmarshalJSON, decodeServerDetailsEnvelope, foldE, hk, hdec]
  · intro key inner hk s0
    simp [ServerDetails.unmarshalJSON, decodeServerDetailsEnvelope, foldE, hk]

theorem serverdetails_unmarshal_populates_witness :
    ServerDetails.unmarshalJSON ServerDetails.default
        (.obj [("Server", .obj [("hostname", .str "h"), ("host", .num 7)])])
      = ({ ServerDetails.default with Hostname := "h", Host := 7 }, none) :=
  serverdetails_unmarshal_populates.1 "Server"
    (.obj [("hostname", .str "h"), ("host", .num 7)])
    { ServerDetails.default with Hostname := "h", Host := 7 }
    (by rfl) (by rfl) (by rfl) ServerDetails.default

/-- `findStorageDevice` is exactly the first-match search of the list. -/
theorem findStorageDevice_eq_find (u : String) :
    ∀ l : List ServerStorageDevice,
      findStorageDevice u l = l.find? (fun d => d.UUID == u) := by
  intro l
  induction l with
  | nil => rfl
  | cons d rest ih =>
    by_cases h : d.UUID == u
    · simp [findStorageDevice, List.find?, h]
    · simp only [Bool.not_eq_true] at h
      simp [findStorageDevice, List.find?, h, ih]

/-- Claim C9: `ServerDetails.StorageDevice` returns the first storage
device of `StorageDevices` whose UUID equals the argument (the first-match
search of the slice in order), and nil when no device matches — in
particular on an empty slice. -/
theorem storageDevice_first_match (s : ServerDetails) (u : String) :
    s.storageDevice u = s.StorageDevices.find? (fun d => d.UUID == u)
    ∧ ((∀ d ∈ s.StorageDevices, d.UUID ≠ u) → s.storageDevice u = none) := by
  constructor
  · exact findStorageDevice_eq_find u s.StorageDevices
  · intro hnone
    rw [ServerDetails.storageDevice, findStorageDevice_eq_find u]
    rw [List.find?_eq_none]
    intro d hd
    simp [hnone d hd]

theorem storageDevice_first_match_witness :
    ({ ServerDetails.default with StorageDevices := [⟨"u1"⟩, ⟨"u2"⟩] } : ServerDetails).storageDevice "u3" = none :=
  (storageDevice_first_match
    { ServerDetails.default with StorageDevices := [⟨"u1"⟩, ⟨"u2"⟩] } "u3").2
    (by decide)

end Upcloud

namespace Upcloud

/-! ### Claims about the state poller -/

/-- If the first `i` fetches fail the success condition, the (i+1)-st
satisfies it, and the budget allows reaching it, the loop succeeds exactly
there. -/
theorem waitAux_success (resource : String) (fetch : Nat → String) (m : WaitMode)
    (interval timeout : Nat) :
    ∀ (i fuel k elapsed : Nat),
      i < fuel →
      (∀ j, j < i → stateMatches m (fetch (k + j)) = false) →
      stateMatches m (fetch (k + i)) = true →
      elapsed + i * interval ≤ timeout →
      waitAux resource fetch m interval timeout fuel k elapsed
        = .success (k + i + 1) (fetch (k + i)) := by
  intro i
  induction i with
  | zero =>
    intro fuel k elapsed hfuel _ hmatch _
    cases fuel with
    | zero => omega
    | succ f =>
      simp only [Nat.add_zero] at hmatch
      simp [waitAux, hmatch]
  | succ i ih =>
    intro fuel k elapsed hfuel hbefore hmatch hbudget
    cases fuel with
    | zero => omega
    | succ f =>
      have hfail : stateMatches m (fetch k) = false := by
        have := hbefore 0 (Nat.succ_pos i)
        simpa using this
      have hmul : (i + 1) * interval = i * interval + interval := by ring
      have hstep : ¬ timeout < elapsed + interval := by omega
      have hrec := ih f (k + 1) (elapsed + interval)
        (by omega)
        (by
          intro j hj
          have := hbefore (j + 1) (by omega)
          have e : k + (j + 1) = k + 1 + j := by omega
          rwa [e] at this)
        (by
          have e : k + (i + 1) = k + 1 + i := by omega
          rwa [e] at hmatch)
        (by omega)
      have e : k + 1 + i = k + (i + 1) := by omega
      rw [e] at hrec
      simp [waitAux, hfail, hstep, hrec]

/-- Claim C7: for every sequence of fetched lifecycle states and either
mode, `waitForState` succeeds exactly at the first fetch satisfying the
mode (equality with the desired state, or difference from the undesired
state): if the first `i` fetches fail the condition, the (i+1)-st
satisfies it, and `i` polling intervals fit in the timeout, the call
returns success after exactly `i + 1` fetches with that fetched state. -/
theorem waitForState_first_success (resource : String) (fetch : Nat → String)
    (m : WaitMode) (interval timeout i : Nat)
    (hI : 0 < interval)
    (hbudget : i * interval ≤ timeout)
    (hbefore : ∀ j, j < i → stateMatches m (fetch j) = false)
    (hmatch : stateMatches m (fetch i) = true) :
    waitForState resource fetch m interval timeout = .success (i + 1) (fetch i) := by
  have hle : i ≤ i * interval := Nat.le_mul_of_pos_right i hI
  have h := waitAux_success resource fetch m interval timeout i (timeout + 2) 0 0
    (by omega)
    (by intro j hj; simpa using hbefore j hj)
    (by simpa using hmatch)
    (by omega)
  simpa [waitForState] using h

theorem waitForState_first_success_witness :
    waitForState "server-uuid" (fun k => if k < 2 then "stopped" else "started")
        (.desired "started") 1 5
      = .success 3 "started" :=
  waitForState_first_success "server-uuid" (fun k => if k < 2 then "stopped" else "started")
    (.desired "started") 1 5 2 (by decide) (by decide)
    (by intro j hj; interval_cases j <;> rfl) (by rfl)

/-- If every fetch fails the success condition, the loop runs until the
first multiple of the interval that exceeds the timeout and fails there
with a TimeoutError carrying the resource and the mode. -/
theorem waitAux_timeout (resource : String) (fetch : Nat → String) (m : WaitMode)
    (interval timeout : Nat)
    (hfail : ∀ n, stateMatches m (fetch n) = false) :
    ∀ (fuel q k : Nat),
      q * interval ≤ timeout →
      timeout < (q + fuel) * interval →
      waitAux resource fetch m interval timeout fuel k (q * interval)
        = .timeoutError resource m ((timeout / interval + 1) * interval) := by
  intro fuel
  induction fuel with
  | zero =>
    intro q k hlo hhi
    simp only [Nat.add_zero] at hhi
    omega
  | succ f ih =>
    intro q k hlo hhi
    by_cases hstep : timeout < q * interval + interval
    · have hdiv : timeout / interval = q := by
        apply Nat.div_eq_of_lt_le hlo
        have : (q + 1) * interval = q * interval + interval := by ring
        omega
      have : (timeout / interval + 1) * interval = q * interval + interval := by
        rw [hdiv]; ring
      simp [waitAux, hfail k, hstep, this]
    · have hmul : (q + 1) * interval = q * interval + interval := by ring
      have hrec := ih (q + 1) (k + 1)
        (by omega)
        (by
          have : (q + 1 + f) * interval = (q + (f + 1)) * interval := by ring
          omega)
      rw [hmul] at hrec
      simp [waitAux, hfail k, hstep, hrec]

/-- Claim C8: if the success condition is never met, `waitForState` fails
with a TimeoutError identifying the resource and the mode (hence the state
never reached or never left), at a cumulative elapsed time strictly
greater than the timeout and at most the timeout plus one polling interval
(bounded overshoot, neither earlier nor unbounded). -/
theorem waitForState_timeout_bounded (resource : String) (fetch : Nat → String)
    (m : WaitMode) (interval timeout : Nat)
    (hI : 0 < interval)
    (hfail : ∀ n, stateMatches m (fetch n) = false) :
    waitForState resource fetch m interval timeout
        = .timeoutError resource m ((timeout / interval + 1) * interval)
    ∧ timeout < (timeout / interval + 1) * interval
    ∧ (timeout / interval + 1) * interval ≤ timeout + interval := by
  have hmod : interval * (timeout / interval) + timeout % interval = timeout :=
    Nat.div_add_mod timeout interval
  have hmodlt : timeout % interval < interval := Nat.mod_lt timeout hI
  have hexp : (timeout / interval + 1) * interval = interval * (timeout / interval) + interval := by
    ring
  refine ⟨?_, by omega, by omega⟩
  have hfuel : timeout < (0 + (timeout + 2)) * interval := by
    rw [Nat.zero_add]
    have : timeout + 2 ≤ (timeout + 2) * interval := Nat.le_mul_of_pos_right (timeout + 2) hI
    omega
  have h := waitAux_timeout resource fetch m interval timeout hfail (timeout + 2) 0 0
    (by omega) hfuel
  simpa [waitForState] using h

theorem waitForState_timeout_bounded_witness :
    waitForState "storage-uuid" (fun _ => "maintenance") (.desired "started") 1 5
        = .timeoutError "storage-uuid" (.desired "started") ((5 / 1 + 1) * 1)
    ∧ 5 < (5 / 1 + 1) * 1
    ∧ (5 / 1 + 1) * 1 ≤ 5 + 1 :=
  waitForState_timeout_bounded "storage-uuid" (fun _ => "maintenance")
    (.desired "started") 1 5 (by decide) (fun n => rfl)

end Upcloud
